import Mathlib

/-!
# Verification of the Cytation5 serial-protocol engine

Shallow embedding of `pylabrobot/plate_reading/biotek_backend.py`
(`Cytation5Backend`): checksummed command builders, the fixed-grid
response parser, the terminator-read loop, the device/channel model for
`read_absorbance`, the imaging setters with their state caches, the shake
session lifecycle, and the image-acquisition retry loop.

Bytes are modelled as `Nat` (ASCII codes); Python `bytes`/`str` values are
`List Nat`.  Python `float` values parsed from decimal digit strings are
modelled as `ℚ`.  Fallible Python code (raised exceptions) is modelled
with `Except Err`.
-/

namespace Cytation5

/-- Python exception values raised by the backend, by class and message. -/
inductive Err
  | valueError (msg : String)
  | assertionError (msg : String)
  | timeoutError (msg : String)
  | notImplementedError (msg : String)
  | runtimeError (msg : String)
deriving DecidableEq, Repr

deriving instance DecidableEq for Except

/-- ASCII bytes of a string literal (all source templates are ASCII). -/
def bytesOf (s : String) : List Nat := s.data.map Char.toNat

/-- `48 ≤ b ≤ 57`: the byte is an ASCII decimal digit. -/
def isDigitByte (b : Nat) : Bool := decide (48 ≤ b ∧ b ≤ 57)

/-- Fuel-driven core of the decimal rendering of a natural number. -/
def natDigitsAux : Nat → Nat → List Nat
  | 0, _ => []
  | fuel + 1, n => if n < 10 then [48 + n] else natDigitsAux fuel (n / 10) ++ [48 + n % 10]

/-- Embedding of Python `str(n)` for a nonnegative integer `n`:
the ASCII decimal numeral, no padding. -/
def pyStrNat (n : Nat) : List Nat := natDigitsAux (n + 1) n

/-- Embedding of Python `str.zfill(w)`: left-pad with `'0'` to width `w`. -/
def zfill (w : Nat) (s : List Nat) : List Nat := List.replicate (w - s.length) 48 ++ s

/-- Value of a list of ASCII digit bytes read as a decimal numeral
(the reading direction of Python `int`/`float` on digit strings). -/
def decDigits (l : List Nat) : Nat := l.foldl (fun a b => a * 10 + (b - 48)) 0


/-! ## Payload builders (absorbance, fluorescence, shake)

From `read_absorbance`, `read_fluorescence` and the `shake_maximal_duration`
closure in `shake`.  Each builds a digit-string body, computes a mod-100
byte-sum checksum (`read_fluorescence` adds 7, `shake` adds 73 before the
modulo), renders it with Python `str`, and appends it plus the ETX byte. -/

/-- Body of the absorbance `D` command:
`f"00470101010812000120010000110010000010600008{wavelength_str}1"` with
`wavelength_str = str(wavelength).zfill(4)`. -/
def absBody (w : Nat) : List Nat :=
  bytesOf "00470101010812000120010000110010000010600008" ++
    zfill 4 (pyStrNat w) ++ bytesOf "1"

/-- `checksum = str(sum(cmd.encode()) % 100)` in `read_absorbance`. -/
def absChecksum (w : Nat) : List Nat := pyStrNat ((absBody w).sum % 100)

/-- The full absorbance `D` parameter: body, checksum, ETX (`"\x03"`). -/
def absCmd (w : Nat) : List Nat := absBody w ++ absChecksum w ++ [3]

/-- Body of the fluorescence `D` command, embedding the two zero-padded
4-digit wavelengths at fixed offsets. -/
def fluorBody (ex em : Nat) : List Nat :=
  bytesOf "008401010108120001200100001100100000135000100200200" ++
    zfill 4 (pyStrNat ex) ++ bytesOf "000" ++ zfill 4 (pyStrNat em) ++
    bytesOf "000000000000000000210011"

/-- `checksum = str((sum(cmd.encode()) + 7) % 100)` in `read_fluorescence`. -/
def fluorChecksum (ex em : Nat) : List Nat := pyStrNat (((fluorBody ex em).sum + 7) % 100)

/-- The full fluorescence `D` parameter: body, checksum, ETX. -/
def fluorCmd (ex em : Nat) : List Nat := fluorBody ex em ++ fluorChecksum ex em ++ [3]

/-- `class ShakeType(enum.IntEnum): LINEAR = 0; ORBITAL = 1`. -/
inductive ShakeType
  | LINEAR
  | ORBITAL
deriving DecidableEq, Repr

/-- `.value` of the `IntEnum`. -/
def ShakeType.value : ShakeType → Nat
  | .LINEAR => 0
  | .ORBITAL => 1

/-- Body of the shake `D` command:
`f"0033010101010100002000000013{duration}{shake_type_bit}301"` with
`duration = str(16 * 60).zfill(3)`. -/
def shakeBody (ty : ShakeType) : List Nat :=
  bytesOf "0033010101010100002000000013" ++ zfill 3 (pyStrNat (16 * 60)) ++
    pyStrNat ty.value ++ bytesOf "301"

/-- `checksum = str((sum(cmd.encode()) + 73) % 100)` in `shake`. -/
def shakeChecksum (ty : ShakeType) : List Nat := pyStrNat (((shakeBody ty).sum + 73) % 100)

/-- The full shake `D` parameter: body, checksum, ETX. -/
def shakeCmd (ty : ShakeType) : List Nat := shakeBody ty ++ shakeChecksum ty ++ [3]

/-- The spec's claimed rendering of a checksum value: exactly two decimal
digits with a leading zero for values below 10.  Stated from the spec's
words, for comparison with the source's `str` rendering. -/
def specTwoDigitChecksum (n : Nat) : List Nat := [48 + n / 10 % 10, 48 + n % 10]

/-! ## Response parser (`_parse_body`)

`bytes.index` / `bytes.rindex` (first / last occurrence of a subsequence,
`ValueError: subsection not found` when absent), `bytes.split` on a
multi-byte separator, grouping into 3-field groups, and `float` conversion
of the third field of each group. -/

/-- First index at which `pat` occurs in `l` (Python `bytes.index`,
as an `Option` instead of a raised `ValueError`). -/
def findSeq (pat : List Nat) : List Nat → Option Nat
  | [] => if pat = [] then some 0 else none
  | b :: rest =>
    if pat.isPrefixOf (b :: rest) then some 0 else (findSeq pat rest).map (· + 1)

/-- Last index at which `pat` occurs in `l` (Python `bytes.rindex`). -/
def rfindSeq (pat : List Nat) : List Nat → Option Nat
  | [] => if pat = [] then some 0 else none
  | b :: rest =>
    match rfindSeq pat rest with
    | some i => some (i + 1)
    | none => if pat.isPrefixOf (b :: rest) then some 0 else none

/-- Fuel-driven core of Python `bytes.split(sep)` for nonempty `sep`:
left-to-right, non-overlapping. -/
def splitSeqAux (sep : List Nat) : Nat → List Nat → List (List Nat)
  | 0, l => [l]
  | fuel + 1, l =>
    match findSeq sep l with
    | none => [l]
    | some i => l.take i :: splitSeqAux sep fuel (l.drop (i + sep.length))

/-- Python `l.split(sep)` for nonempty `sep`. -/
def splitSeq (sep l : List Nat) : List (List Nat) := splitSeqAux sep l.length l

/-- `[values[i : i + 3] for i in range(0, len(values), 3)]`. -/
def chunks3 {α : Type} : List α → List (List α)
  | [] => []
  | [a] => [[a]]
  | [a, b] => [[a, b]]
  | a :: b :: c :: rest => [a, b, c] :: chunks3 rest

/-- Embedding of Python `float(s)` on the ASCII digit strings the
instrument emits: optional leading `-`, decimal digits with at most one
`.` (at least one digit overall); anything else is a conversion error. -/
def pyFloat (l : List Nat) : Option ℚ :=
  let sign : ℚ := if l.head? = some 45 then -1 else 1
  let mag : List Nat := if l.head? = some 45 then l.tail else l
  match splitSeq [46] mag with
  | [ip] =>
    if ip ≠ [] ∧ ip.all isDigitByte then some (sign * decDigits ip) else none
  | [ip, fp] =>
    if (ip ≠ [] ∨ fp ≠ []) ∧ ip.all isDigitByte ∧ fp.all isDigitByte then
      some (sign * ((decDigits ip : ℚ) + decDigits fp / 10 ^ fp.length))
    else none
  | _ => none

/-- Loop body of `_parse_body` for one group: `assert len(group) == 3`,
then `float(group[2].decode())`. -/
def parseGroup (group : List (List Nat)) : Except Err ℚ :=
  if h : group.length = 3 then
    match pyFloat (group.get ⟨2, by omega⟩) with
    | some q => .ok q
    | none => .error (.valueError "could not convert string to float")
  else .error (.assertionError "len(group) == 3")

/-- One row segment: split on `","`, group into 3-field groups, assert each
group has 3 fields, convert the third field of each group with `float`. -/
def parseRow (row : List Nat) : Except Err (List ℚ) :=
  (chunks3 (splitSeq [44] row)).mapM parseGroup

/-- `_parse_body`: locate `"01,01"` (first) and `"\r\n"` (last), slice,
split on `"\r\n,"`, keep at most 8 row segments, parse each row. -/
def parseBody (body : List Nat) : Except Err (List (List ℚ)) :=
  match findSeq (bytesOf "01,01") body with
  | none => .error (.valueError "subsection not found")
  | some s =>
    match rfindSeq [13, 10] body with
    | none => .error (.valueError "subsection not found")
    | some e =>
      let rows := (splitSeq [13, 10, 44] ((body.take e).drop s)).take 8
      rows.mapM parseRow

/-! ## Terminator-read loop (`_read_until`)

The channel is modelled as the list of bytes it will deliver before going
silent; reading an available byte is instantaneous, so the wall-clock
timeout elapses exactly when the channel runs dry without having produced
the terminator.  The first component is the accumulator `res` (the value
the source logs); the second is the outcome.  On timeout the source logs
`res` and raises `TimeoutError` with a fixed message not containing it. -/

def readUntilGo (term : Nat) : List Nat → List Nat → List Nat × Except Err (List Nat)
  | acc, [] => (acc, .error (.timeoutError "Timeout while waiting for response"))
  | acc, b :: rest =>
    if b = term then (acc ++ [b], .ok (acc ++ [b])) else readUntilGo term (acc ++ [b]) rest

/-- `_read_until(char)` against a channel that will deliver `pending` and
then nothing: accumulator (logged) and outcome. -/
def readUntilFull (pending : List Nat) (term : Nat) : List Nat × Except Err (List Nat) :=
  readUntilGo term [] pending

/-! ## Canonical well-formed bodies

A grid of 3-field groups `(row-index field, col-index field, value)`
rendered onto the wire exactly as the instrument emits it: groups are
comma-joined into row segments, row segments are joined by `"\r\n,"`, and
the data span ends with a final `"\r\n"` before the ETX byte. -/

/-- The three wire fields of a group: both index fields verbatim, the
value as its decimal numeral. -/
def mkGroupFields (g : List Nat × List Nat × Nat) : List (List Nat) :=
  [g.1, g.2.1, pyStrNat g.2.2]

/-- The flat field list of one row segment. -/
def rowFields (row : List (List Nat × List Nat × Nat)) : List (List Nat) :=
  (row.map mkGroupFields).flatten

/-- Join parts with a separator (the inverse image of `splitSeq`). -/
def joinSep (sep : List Nat) : List (List Nat) → List Nat
  | [] => []
  | [p] => p
  | p :: q :: rest => p ++ sep ++ joinSep sep (q :: rest)

/-- One row segment: comma-joined fields. -/
def mkRow (row : List (List Nat × List Nat × Nat)) : List Nat :=
  joinSep [44] (rowFields row)

/-- A whole data body: row segments joined by `"\r\n,"`, then the final
`"\r\n"` and the ETX terminator. -/
def mkBody (grid : List (List (List Nat × List Nat × Nat))) : List Nat :=
  joinSep [13, 10, 44] (grid.map mkRow) ++ [13, 10, 3]

/-- The matrix `_parse_body` should produce from a grid: the value of each
group, in order, indices ignored. -/
def gridValues (grid : List (List (List Nat × List Nat × Nat))) : List (List ℚ) :=
  grid.map fun row => row.map fun g => (g.2.2 : ℚ)

/-! ## Device / channel model and `send_command` / `read_absorbance`

The serial device is a trace of channel operations plus a script: the list
of byte bursts the channel will deliver to successive terminator reads.
`ftdi_usb_purge_rx_buffer` is called 6 times and the TX purge once before
every command (`_purge_buffers`). -/

inductive DevOp
  | write (bs : List Nat)
  | purgeRx
  | purgeTx
deriving DecidableEq, Repr

structure Dev where
  ops : List DevOp := []
  script : List (List Nat) := []
deriving DecidableEq, Repr

/-- `_purge_buffers`: six RX purges, one TX purge. -/
def purgeBuffers (dev : Dev) : Dev :=
  { dev with ops := dev.ops ++ List.replicate 6 .purgeRx ++ [.purgeTx] }

def devWrite (dev : Dev) (bs : List Nat) : Dev :=
  { dev with ops := dev.ops ++ [.write bs] }

/-- `_read_until` against the device: consume the next scripted burst. -/
def devReadUntil (dev : Dev) (term : Nat) : Dev × Except Err (List Nat) :=
  match dev.script with
  | [] => (dev, (readUntilFull [] term).2)
  | pending :: rest => ({ dev with script := rest }, (readUntilFull pending term).2)

/-- `send_command(command, parameter, wait_for_response)`: purge, write the
command code, await ACK (`0x06`) when a parameter follows else ETX (`0x03`)
when a response is requested, then write the parameter and await ETX. -/
def sendCommand (dev : Dev) (command : List Nat) (parameter : Option (List Nat))
    (waitForResponse : Bool) : Dev × Except Err (Option (List Nat)) :=
  let dev := devWrite (purgeBuffers dev) command
  let step1 : Dev × Except Err (Option (List Nat)) :=
    if waitForResponse || parameter.isSome then
      match devReadUntil dev (if parameter.isSome then 6 else 3) with
      | (d, .error e) => (d, .error e)
      | (d, .ok b) => (d, .ok (some b))
    else (dev, .ok none)
  match step1 with
  | (d, .error e) => (d, .error e)
  | (d, .ok resp) =>
    match parameter with
    | none => (d, .ok resp)
    | some p =>
      let d := devWrite d p
      if waitForResponse then
        match devReadUntil d 3 with
        | (d2, .error e) => (d2, .error e)
        | (d2, .ok b) => (d2, .ok (some b))
      else (d, .ok resp)

/-- The priming `y` parameter sent before reads (`"0812...1772\x03"`). -/
def primeParam : List Nat := bytesOf "08120112207434014351135308559127881772" ++ [3]

/-- `read_absorbance(wavelength)`: validate the wavelength bounds first
(before any channel operation), then prime, send the checksummed `D`
command, trigger with `O`, assert the exact `\x06 0000 \x03` acknowledgment,
read the data body and parse it. -/
def readAbsorbance (dev : Dev) (wavelength : Int) : Dev × Except Err (List (List ℚ)) :=
  if ¬(230 ≤ wavelength ∧ wavelength ≤ 999) then
    (dev, .error (.valueError "Wavelength must be between 230 and 999"))
  else
    match sendCommand dev (bytesOf "y") (some primeParam) true with
    | (dev, .error e) => (dev, .error e)
    | (dev, .ok _) =>
      match sendCommand dev (bytesOf "D") (some (absCmd wavelength.toNat)) true with
      | (dev, .error e) => (dev, .error e)
      | (dev, .ok _) =>
        match sendCommand dev (bytesOf "O") none true with
        | (dev, .error e) => (dev, .error e)
        | (dev, .ok resp) =>
          if resp = some [6, 48, 48, 48, 48, 3] then
            match devReadUntil dev 3 with
            | (dev, .error e) => (dev, .error e)
            | (dev, .ok body) => (dev, parseBody body)
          else (dev, .error (.assertionError "resp == ACK 0000 ETX"))

/-! ## Imaging-side state, setters and their caches

Camera node operations and serial commands issued by the setters are
recorded as events.  At this layer a serial exchange is recorded as a
single `wireCmd` event; node access modes are readable/writable (the
`RuntimeError` paths for unreadable nodes are hardware faults outside the
protocol model). -/

inductive Ev
  | camOp (name : String)
  | wireCmd (command : String) (parameter : Option String)
deriving DecidableEq, Repr

/-- `Exposure = Union[float, Literal["auto"]]`. -/
inductive ExposureV
  | auto
  | num (q : ℚ)
deriving DecidableEq, Repr

/-- `Gain = Union[float, Literal["auto"]]`. -/
inductive GainV
  | auto
  | num (q : ℚ)
deriving DecidableEq, Repr

/-- `FocalPosition = Union[float, Literal["auto"]]`. -/
inductive FocalV
  | auto
  | num (q : ℚ)
deriving DecidableEq, Repr

inductive ImagingModeV
  | BRIGHTFIELD
  | GFP
  | TEXAS_RED
  | PHASE_CONTRAST
  | COLOR_BRIGHTFIELD
deriving DecidableEq, Repr

/-- Camera limits read from the nodes (`ExposureTime.GetMin/GetMax`,
`Gain.GetMin/GetMax`). -/
structure CamState where
  expMin : Int := 8
  expMax : Int := 30000000
  gainMin : ℚ := 0
  gainMax : ℚ := 30
deriving DecidableEq, Repr

/-- Backend state: optional camera, the setter caches (`_exposure`,
`_focal_height`, `_gain`, `_imaging_mode`, `_row`, `_column`) and the
chronological event trace. -/
structure ImSt where
  cam : Option CamState := none
  exposure : Option ExposureV := none
  focalHeight : Option FocalV := none
  gain : Option GainV := none
  imagingMode : Option ImagingModeV := none
  row : Option Int := none
  column : Option Int := none
  ops : List Ev := []
deriving DecidableEq, Repr

def addOp (st : ImSt) (e : Ev) : ImSt := { st with ops := st.ops ++ [e] }

/-- `ValueError("Camera not initialized. Run setup(use_cam=True) first.")`. -/
def notInitErr : Err := .valueError "Camera not initialized. Run setup(use_cam=True) first."

/-- Python `int()` on a rational: truncation toward zero. -/
def pyInt (q : ℚ) : Int := if 0 ≤ q then ⌊q⌋ else ⌈q⌉

/-- Python `str(n).zfill(w)` at the `String` level (arguments here are
nonnegative in every call site). -/
def strZfill (w : Nat) (s : String) : String :=
  String.mk (List.replicate (w - s.length) '0') ++ s

/-- `set_auto_exposure(mode)`: camera check, then one node write. -/
def setAutoExposure (st : ImSt) (mode : String) : ImSt × Except Err Unit :=
  match st.cam with
  | none => (st, .error notInitErr)
  | some _ => (addOp st (.camOp ("ExposureAuto.SetValue " ++ mode)), .ok ())

/-- `set_exposure(exposure)`: cache check FIRST, then camera check, then
auto/numeric paths; the numeric path disables auto exposure, bounds-checks
the microsecond value against the camera limits and writes it. -/
def setExposure (st : ImSt) (exposure : ExposureV) : ImSt × Except Err Unit :=
  if st.exposure = some exposure then (st, .ok ())
  else
    match st.cam with
    | none => (st, .error notInitErr)
    | some cs =>
      match exposure with
      | .auto =>
        match setAutoExposure st "Continuous" with
        | (st1, .error e) => (st1, .error e)
        | (st1, .ok ()) => ({ st1 with exposure := some .auto }, .ok ())
      | .num q =>
        let st1 := addOp st (.camOp "ExposureAuto.SetValue Off")
        let us : Int := pyInt (q * 1000)
        if us < cs.expMin then
          (st1, .error (.valueError ("exposure must be >= " ++ toString cs.expMin)))
        else if us > cs.expMax then
          (st1, .error (.valueError ("exposure must be <= " ++ toString cs.expMax)))
        else
          ({ addOp st1 (.camOp ("ExposureTime.SetValue " ++ toString us)) with
              exposure := some exposure }, .ok ())

/-- `select(row, column)`: cache check first, then the two `Y` commands. -/
def select (st : ImSt) (row column : Int) : ImSt × Except Err Unit :=
  if st.row = some row ∧ st.column = some column then (st, .ok ())
  else
    let st1 := addOp st (.wireCmd "Y" (some "Z1260101000000000000"))
    let st2 := addOp st1 (.wireCmd "Y"
      (some ("W6" ++ strZfill 2 (toString row) ++ strZfill 2 (toString column))))
    ({ st2 with row := some row, column := some column }, .ok ())

/-- `set_gain(gain)`: camera check FIRST, then cache check, then range
check, then the node writes (GainAuto before the camera-limit checks). -/
def setGain (st : ImSt) (gain : GainV) : ImSt × Except Err Unit :=
  match st.cam with
  | none => (st, .error notInitErr)
  | some cs =>
    if st.gain = some gain then (st, .ok ())
    else
      match gain with
      | .auto =>
        let st1 := addOp st (.camOp "GainAuto.SetValue Continuous")
        ({ st1 with gain := some .auto }, .ok ())
      | .num q =>
        if ¬(0 ≤ q ∧ q ≤ 30) then
          (st, .error (.valueError "gain must be between 0 and 30 (inclusive), or 'auto'"))
        else
          let st1 := addOp st (.camOp "GainAuto.SetValue Off")
          if q < cs.gainMin then
            (st1, .error (.valueError ("gain must be >= " ++ toString cs.gainMin)))
          else if q > cs.gainMax then
            (st1, .error (.valueError ("gain must be <= " ++ toString cs.gainMax)))
          else
            ({ addOp st1 (.camOp ("Gain.SetValue " ++ toString q)) with
                gain := some gain }, .ok ())

/-- `set_focus(focal_position)`: cache check first, `auto` delegates to the
unimplemented `auto_focus`, numeric converts with the reverse-engineered
linear relation (float constants modelled as the exact rationals of their
decimal literals) and issues the two commands. -/
def setFocus (st : ImSt) (focalPosition : FocalV) : ImSt × Except Err Unit :=
  if st.focalHeight = some focalPosition then (st, .ok ())
  else
    match focalPosition with
    | .auto => (st, .error (.notImplementedError "auto_focus not implemented yet"))
    | .num fp =>
      let slope : ℚ := 10.637991436186072
      let intercept : ℚ := 1.0243013203461762
      let focusInteger : Int := pyInt (fp + intercept + slope * fp * 1000)
      let st1 := addOp st (.wireCmd "Y" (some "Z1560101000000000000"))
      let st2 := addOp st1 (.wireCmd "i" (some ("F50" ++ strZfill 5 (toString focusInteger))))
      ({ st2 with focalHeight := some focalPosition }, .ok ())

/-- `led_off()`. -/
def ledOff (st : ImSt) : ImSt := addOp st (.wireCmd "i" (some "L0001"))

/-- The LED code dictionary in `led_on` (COLOR_BRIGHTFIELD has no entry;
it is unreachable because `set_imaging_mode` rejects it earlier). -/
def imagingModeCode : ImagingModeV → String
  | .BRIGHTFIELD => "05"
  | .GFP => "02"
  | .TEXAS_RED => "03"
  | .PHASE_CONTRAST => "07"
  | .COLOR_BRIGHTFIELD => "XX"

/-- `led_on(intensity)`. -/
def ledOn (st : ImSt) (intensity : Nat) : ImSt × Except Err Unit :=
  if ¬(1 ≤ intensity ∧ intensity ≤ 10) then
    (st, .error (.valueError "intensity must be between 1 and 10"))
  else
    match st.imagingMode with
    | none => (st, .error (.valueError "Imaging mode not set. Run set_imaging_mode() first."))
    | some m =>
      (addOp st (.wireCmd "i"
        (some ("L" ++ imagingModeCode m ++ strZfill 2 (toString intensity)))), .ok ())

/-- The per-mode filter/LED command sequence in `set_imaging_mode`. -/
def imagingModeCmds (st : ImSt) : ImagingModeV → ImSt
  | .PHASE_CONTRAST =>
    addOp (addOp (addOp st (.wireCmd "Y" (some "P1120"))) (.wireCmd "Y" (some "P0d05")))
      (.wireCmd "Y" (some "P1002"))
  | .BRIGHTFIELD =>
    addOp (addOp (addOp (addOp (addOp (addOp st
      (.wireCmd "Y" (some "Z1500000000000000000")))
      (.wireCmd "i" (some "F5000000")))
      (.wireCmd "i" (some "W000000")))
      (.wireCmd "Y" (some "P1101")))
      (.wireCmd "Y" (some "P0d05")))
      (.wireCmd "Y" (some "P1002"))
  | .GFP =>
    addOp (addOp (addOp st (.wireCmd "Y" (some "P1101"))) (.wireCmd "Y" (some "P0d02")))
      (.wireCmd "Y" (some "P1001"))
  | .TEXAS_RED =>
    addOp (addOp (addOp st (.wireCmd "Y" (some "P1101"))) (.wireCmd "Y" (some "P0d03")))
      (.wireCmd "Y" (some "P1001"))
  | .COLOR_BRIGHTFIELD => st

/-- `set_imaging_mode(mode)`: camera check, cache check, COLOR_BRIGHTFIELD
rejection, `led_off`, mode commands, cache update, `led_on`. -/
def setImagingMode (st : ImSt) (mode : ImagingModeV) : ImSt × Except Err Unit :=
  match st.cam with
  | none => (st, .error notInitErr)
  | some _ =>
    if st.imagingMode = some mode then (st, .ok ())
    else if mode = .COLOR_BRIGHTFIELD then
      (st, .error (.notImplementedError "Color brightfield imaging not implemented yet"))
    else
      let st1 := imagingModeCmds (ledOff st) mode
      let st2 := { st1 with imagingMode := some mode }
      ledOn st2 10

/-! ## Shake session lifecycle

The synchronous effect of `shake(shake_type)` is `self._shaking = True`
and `self._shaking_task = asyncio.create_task(shake_continuous())`: a
fresh background task is created unconditionally and the handle replaced.
`running` records created background tasks not yet cancelled; `nextId` is
a fresh task identifier supply. -/

structure ShakeSt where
  shaking : Bool := false
  task : Option Nat := none
  running : List Nat := []
  nextId : Nat := 0
  ops : List Ev := []
deriving DecidableEq, Repr

/-- Synchronous part of `shake(shake_type)`. The shake type is only used
inside the background task body (see `shakeCmd`), not here. -/
def shakeStart (st : ShakeSt) (shakeType : ShakeType) : ShakeSt :=
  { st with
    shaking := true
    task := some st.nextId
    running := st.nextId :: st.running
    nextId := st.nextId + 1 }

/-- `stop_shaking()`: send the abort (`x`, no response), clear the flag,
cancel and await the task held by the handle, drop the handle. -/
def stopShaking (st : ShakeSt) : ShakeSt :=
  let st1 := { st with ops := st.ops ++ [Ev.wireCmd "x" none], shaking := false }
  match st1.task with
  | some t => { st1 with running := st1.running.erase t, task := none }
  | none => st1

/-! ## Image acquisition retry loop (`_acquire_image`)

The imaging capability is a function from the attempt index to that
attempt's outcome: a complete image, an incomplete one, or a
`SpinnakerException` (caught and retried).  `BeginAcquisition` /
`EndAcquisition` bracket the loop (`finally`), a software trigger is
executed on every attempt, and a complete image is converted with the
given color-processing algorithm and pixel format and returned
immediately. -/

inductive FetchOutcome
  | complete (raw : Nat)
  | incomplete
  | exn (msg : String)
deriving DecidableEq, Repr

/-- `processor.Convert(image_result, pixel_format)` after
`SetColorProcessing(color_processing_algorithm)`. -/
structure ConvertedImage where
  colorProcessingAlgorithm : Int
  pixelFormat : Int
  raw : Nat
deriving DecidableEq, Repr

inductive AcqEv
  | begin
  | trigger
  | endAcq
deriving DecidableEq, Repr

/-- `self.max_image_read_attempts = 8` (set in `__init__`). -/
def maxImageReadAttempts : Nat := 8

/-- The `while num_tries < self.max_image_read_attempts` loop:
`remaining` is the number of attempts left, `idx` the attempt index. -/
def acquireLoop (cap : Nat → FetchOutcome) (alg fmt : Int) :
    Nat → Nat → List AcqEv × Except Err ConvertedImage
  | 0, _ => ([], .error (.timeoutError "max_image_read_attempts reached"))
  | remaining + 1, idx =>
    match cap idx with
    | .complete raw => ([.trigger], .ok ⟨alg, fmt, raw⟩)
    | _ =>
      let r := acquireLoop cap alg fmt remaining (idx + 1)
      (.trigger :: r.1, r.2)

/-- `_acquire_image`: begin acquisition, run the bounded retry loop, end
acquisition on every exit path. -/
def acquireImage (cap : Nat → FetchOutcome) (alg fmt : Int) :
    List AcqEv × Except Err ConvertedImage :=
  let r := acquireLoop cap alg fmt maxImageReadAttempts 0
  (.begin :: r.1 ++ [.endAcq], r.2)

/-! ## Concrete instruments for the claims -/

/-- A well-formed 7-row grid (one group per row, the first carrying the
`01,01` marker). -/
def grid7 : List (List (List Nat × List Nat × Nat)) :=
  [[([48, 49], [48, 49], 1)], [([48, 49], [48, 50], 2)], [([48, 49], [48, 51], 3)],
   [([48, 49], [48, 52], 4)], [([48, 49], [48, 53], 5)], [([48, 49], [48, 54], 6)],
   [([48, 49], [48, 55], 7)]]

/-- A well-formed 8-row grid with two groups in the first two rows. -/
def grid8 : List (List (List Nat × List Nat × Nat)) :=
  [[([48, 49], [48, 49], 100), ([48, 49], [48, 50], 200)],
   [([48, 50], [48, 49], 300), ([48, 50], [48, 50], 400)],
   [([48, 51], [48, 49], 5)], [([48, 52], [48, 49], 6)], [([48, 53], [48, 49], 7)],
   [([48, 54], [48, 49], 8)], [([48, 55], [48, 49], 9)], [([48, 56], [48, 49], 10)]]

/-- A capability whose first three attempts are incomplete and whose
fourth (index 3) yields a complete image. -/
def cap4 : Nat → FetchOutcome := fun j => if j = 3 then .complete 7 else .incomplete

/-- A capability that never yields a complete image. -/
def capNever : Nat → FetchOutcome := fun j => if j % 2 = 0 then .incomplete else .exn "not ready"

/-- A camera-initialized state with every setter cache populated. -/
def imStFull : ImSt :=
  { cam := some {}, exposure := some (.num 5), focalHeight := some (.num 3),
    gain := some .auto, imagingMode := some .GFP, row := some 1, column := some 2 }

/-- A state with no camera but a cached exposure and gain. -/
def imStNoCam : ImSt :=
  { cam := none, exposure := some (.num 5), gain := some .auto }

/-! ### Decimal-numeral lemmas -/

theorem natDigitsAux_fuel_irrel :
    ∀ n f g, n < f → n < g → natDigitsAux f n = natDigitsAux g n := by
  intro n
  induction n using Nat.strong_induction_on with
  | _ n ih =>
    intro f g hf hg
    match f, g with
    | f' + 1, g' + 1 =>
      by_cases h : n < 10
      · simp [natDigitsAux, h]
      · have hten : 10 ≤ n := Nat.le_of_not_lt h
        have hlt : n / 10 < n := Nat.div_lt_self (by omega) (by omega)
        simp only [natDigitsAux, h, if_false]
        rw [ih (n / 10) hlt f' g' (by omega) (by omega)]

/-- Unfolding equation for `pyStrNat`. -/
theorem pyStrNat_eq (n : Nat) :
    pyStrNat n = if n < 10 then [48 + n] else pyStrNat (n / 10) ++ [48 + n % 10] := by
  show natDigitsAux (n + 1) n = _
  rw [natDigitsAux]
  by_cases h : n < 10
  · simp [h]
  · have hten : 10 ≤ n := Nat.le_of_not_lt h
    have hlt : n / 10 < n := Nat.div_lt_self (by omega) (by omega)
    simp only [h, if_false]
    rw [natDigitsAux_fuel_irrel (n / 10) n (n / 10 + 1) (by omega) (by omega)]
    rfl

theorem pyStrNat_ne_nil (n : Nat) : pyStrNat n ≠ [] := by
  rw [pyStrNat_eq]
  by_cases h : n < 10 <;> simp [h]

theorem pyStrNat_digits (n : Nat) : ∀ b ∈ pyStrNat n, isDigitByte b = true := by
  induction n using Nat.strong_induction_on with
  | _ n ih =>
    rw [pyStrNat_eq]
    by_cases h : n < 10
    · simp only [h, if_true, List.mem_singleton]
      rintro b rfl
      simp [isDigitByte]; omega
    · have hten : 10 ≤ n := Nat.le_of_not_lt h
      have hlt : n / 10 < n := Nat.div_lt_self (by omega) (by omega)
      simp only [h, if_false, List.mem_append, List.mem_singleton]
      rintro b (hb | rfl)
      · exact ih (n / 10) hlt b hb
      · have := Nat.mod_lt n (show 0 < 10 by omega)
        simp [isDigitByte]; omega

theorem decDigits_append_single (l : List Nat) (c : Nat) :
    decDigits (l ++ [c]) = 10 * decDigits l + (c - 48) := by
  simp [decDigits, List.foldl_append, Nat.mul_comm]

/-- Decoding round-trip: the decimal reading of `str(n)` is `n`. -/
theorem decDigits_pyStrNat (n : Nat) : decDigits (pyStrNat n) = n := by
  induction n using Nat.strong_induction_on with
  | _ n ih =>
    rw [pyStrNat_eq]
    by_cases h : n < 10
    · simp [h, decDigits]
    · have hten : 10 ≤ n := Nat.le_of_not_lt h
      have hlt : n / 10 < n := Nat.div_lt_self (by omega) (by omega)
      simp only [h, if_false]
      rw [decDigits_append_single, ih (n / 10) hlt]
      have h48 : 48 + n % 10 - 48 = n % 10 := by omega
      rw [h48]
      omega

theorem pyStrNat_length_lt100 (n : Nat) (h : n < 100) :
    (pyStrNat n).length = if n < 10 then 1 else 2 := by
  rw [pyStrNat_eq]
  by_cases h10 : n < 10
  · simp [h10]
  · have : n / 10 < 10 := by omega
    simp only [h10, if_false, List.length_append, List.length_singleton]
    rw [pyStrNat_eq]
    simp [this]

/-! ### Find / split lemmas -/

theorem findSeq_of_startsWith {pat l : List Nat} (h : pat <+: l) : findSeq pat l = some 0 := by
  cases l with
  | nil =>
    have : pat = [] := List.prefix_nil.mp h
    simp [findSeq, this]
  | cons b rest =>
    have : pat.isPrefixOf (b :: rest) = true := List.isPrefixOf_iff_prefix.mpr h
    simp [findSeq, this]

theorem findSeq_none_of_not_mem {c : Nat} {cs l : List Nat} (h : c ∉ l) :
    findSeq (c :: cs) l = none := by
  induction l with
  | nil => simp [findSeq]
  | cons b rest ih =>
    have hbc : ¬c = b := fun hcb => h (hcb ▸ List.mem_cons_self b rest)
    have hpre : (c :: cs).isPrefixOf (b :: rest) = false := by
      simp [List.isPrefixOf, hbc]
    simp only [findSeq, hpre, Bool.false_eq_true, if_false]
    rw [ih (fun hm => h (List.mem_cons_of_mem b hm))]
    rfl

theorem findSeq_cons (pat : List Nat) (b : Nat) (rest : List Nat) :
    findSeq pat (b :: rest) =
      if pat.isPrefixOf (b :: rest) then some 0 else (findSeq pat rest).map (· + 1) := rfl

theorem findSeq_at_junction {c : Nat} {cs p r : List Nat} (h : c ∉ p) :
    findSeq (c :: cs) (p ++ (c :: cs) ++ r) = some p.length := by
  induction p with
  | nil =>
    simpa using @findSeq_of_startsWith (c :: cs) ((c :: cs) ++ r) (List.prefix_append _ _)
  | cons a p' ih =>
    have hac : ¬(c = a) := fun hca => h (hca ▸ List.mem_cons_self a p')
    have hpre : (c :: cs).isPrefixOf (a :: (p' ++ (c :: cs) ++ r)) = false := by
      simp [List.isPrefixOf, hac]
    have h' : c ∉ p' := fun hm => h (List.mem_cons_of_mem a hm)
    have hshape : (a :: p') ++ (c :: cs) ++ r = a :: (p' ++ (c :: cs) ++ r) := by simp
    rw [hshape, findSeq_cons, if_neg (by rw [hpre]; exact Bool.false_ne_true), ih h']
    rfl

theorem rfindSeq_cons (pat : List Nat) (b : Nat) (rest : List Nat) :
    rfindSeq pat (b :: rest) =
      match rfindSeq pat rest with
      | some i => some (i + 1)
      | none => if pat.isPrefixOf (b :: rest) then some 0 else none := rfl

theorem rfindSeq_append_of_some {pat m : List Nat} {j : Nat} (l : List Nat)
    (h : rfindSeq pat m = some j) : rfindSeq pat (l ++ m) = some (l.length + j) := by
  induction l with
  | nil => simpa using h
  | cons a l' ih =>
    have hshape : (a :: l') ++ m = a :: (l' ++ m) := by simp
    rw [hshape, rfindSeq_cons, ih]
    have : a :: l' = [a] ++ l' := rfl
    simp [List.length_cons]
    omega

theorem splitSeqAux_succ_of_findSeq {sep l : List Nat} {i f : Nat}
    (h : findSeq sep l = some i) :
    splitSeqAux sep (f + 1) l = l.take i :: splitSeqAux sep f (l.drop (i + sep.length)) := by
  simp [splitSeqAux, h]

theorem splitSeqAux_of_findSeq_none {sep l : List Nat} {f : Nat}
    (h : findSeq sep l = none) : splitSeqAux sep f l = [l] := by
  cases f with
  | zero => rfl
  | succ f => simp [splitSeqAux, h]

/-- Splitting the join recovers the parts, provided no part contains the
first byte of the (nonempty) separator. -/
theorem splitSeqAux_joinSep {c : Nat} (cs : List Nat) :
    ∀ (parts : List (List Nat)) (fuel : Nat), parts ≠ [] →
      (∀ p ∈ parts, c ∉ p) → (joinSep (c :: cs) parts).length ≤ fuel →
      splitSeqAux (c :: cs) fuel (joinSep (c :: cs) parts) = parts := by
  intro parts
  induction parts with
  | nil => intro fuel hne; exact absurd rfl hne
  | cons p rest ih =>
    intro fuel _ hmem hfuel
    cases rest with
    | nil =>
      have hfind : findSeq (c :: cs) p = none :=
        findSeq_none_of_not_mem (hmem p (List.mem_singleton.mpr rfl))
      show splitSeqAux (c :: cs) fuel p = [p]
      exact splitSeqAux_of_findSeq_none hfind
    | cons q rest' =>
      have hp : c ∉ p := hmem p (List.mem_cons_self p _)
      have hJ : joinSep (c :: cs) (p :: q :: rest') =
          p ++ (c :: cs) ++ joinSep (c :: cs) (q :: rest') := rfl
      have hlen : (joinSep (c :: cs) (p :: q :: rest')).length =
          p.length + (cs.length + 1) + (joinSep (c :: cs) (q :: rest')).length := by
        rw [hJ]
        simp [List.length_append]
        omega
      cases fuel with
      | zero =>
        exfalso
        rw [hlen] at hfuel
        omega
      | succ f =>
        have hfind : findSeq (c :: cs) (joinSep (c :: cs) (p :: q :: rest')) =
            some p.length := by rw [hJ]; exact findSeq_at_junction hp
        rw [splitSeqAux_succ_of_findSeq hfind, hJ]
        have htake : (p ++ (c :: cs) ++ joinSep (c :: cs) (q :: rest')).take p.length = p := by
          rw [List.append_assoc]; exact List.take_left p _
        have hdrop : (p ++ (c :: cs) ++ joinSep (c :: cs) (q :: rest')).drop
            (p.length + (c :: cs).length) = joinSep (c :: cs) (q :: rest') := by
          rw [← List.length_append]
          exact List.drop_left _ _
        rw [htake, hdrop]
        have hrec := ih f (by simp) (fun x hx => hmem x (List.mem_cons_of_mem p hx))
          (by rw [hlen] at hfuel; omega)
        rw [hrec]

theorem splitSeq_joinSep {c : Nat} {cs : List Nat} {parts : List (List Nat)}
    (hne : parts ≠ []) (hmem : ∀ p ∈ parts, c ∉ p) :
    splitSeq (c :: cs) (joinSep (c :: cs) parts) = parts :=
  splitSeqAux_joinSep cs parts _ hne hmem le_rfl

theorem splitSeq_of_not_mem {c : Nat} {cs l : List Nat} (h : c ∉ l) :
    splitSeq (c :: cs) l = [l] := by
  have := @splitSeq_joinSep c cs [l] (by simp)
    (by intro p hp; rw [List.mem_singleton] at hp; exact hp ▸ h)
  simpa [joinSep] using this

theorem mem_joinSep {sep : List Nat} {b : Nat} :
    ∀ {parts : List (List Nat)}, b ∈ joinSep sep parts → b ∈ sep ∨ ∃ p ∈ parts, b ∈ p := by
  intro parts
  induction parts with
  | nil => intro h; simp [joinSep] at h
  | cons p rest ih =>
    cases rest with
    | nil =>
      intro h
      exact Or.inr ⟨p, List.mem_singleton.mpr rfl, h⟩
    | cons q rest' =>
      intro h
      have hJ : joinSep sep (p :: q :: rest') = p ++ sep ++ joinSep sep (q :: rest') := rfl
      rw [hJ, List.append_assoc, List.mem_append, List.mem_append] at h
      rcases h with hp | hs | hrest
      · exact Or.inr ⟨p, List.mem_cons_self p _, hp⟩
      · exact Or.inl hs
      · rcases ih hrest with hs | ⟨x, hx, hbx⟩
        · exact Or.inl hs
        · exact Or.inr ⟨x, List.mem_cons_of_mem p hx, hbx⟩

/-! ### Row-level lemmas -/

theorem rowFields_cons (g : List Nat × List Nat × Nat)
    (rest : List (List Nat × List Nat × Nat)) :
    rowFields (g :: rest) = g.1 :: g.2.1 :: pyStrNat g.2.2 :: rowFields rest := rfl

theorem rowFields_ne_nil {row : List (List Nat × List Nat × Nat)} (h : row ≠ []) :
    rowFields row ≠ [] := by
  cases row with
  | nil => exact absurd rfl h
  | cons g rest => rw [rowFields_cons]; simp

theorem mem_rowFields {row : List (List Nat × List Nat × Nat)} {f : List Nat}
    (h : f ∈ rowFields row) : ∃ g ∈ row, f = g.1 ∨ f = g.2.1 ∨ f = pyStrNat g.2.2 := by
  unfold rowFields at h
  rw [List.mem_flatten] at h
  obtain ⟨fields, hfields, hf⟩ := h
  rw [List.mem_map] at hfields
  obtain ⟨g, hg, rfl⟩ := hfields
  refine ⟨g, hg, ?_⟩
  unfold mkGroupFields at hf
  simp only [List.mem_cons, List.mem_singleton, List.not_mem_nil, or_false] at hf
  tauto

theorem chunks3_rowFields (row : List (List Nat × List Nat × Nat)) :
    chunks3 (rowFields row) = row.map mkGroupFields := by
  induction row with
  | nil => rfl
  | cons g rest ih =>
    rw [rowFields_cons]
    show mkGroupFields g :: chunks3 (rowFields rest) = _
    rw [ih]
    rfl

theorem pyFloat_pyStrNat (v : Nat) : pyFloat (pyStrNat v) = some (v : ℚ) := by
  have hdig := pyStrNat_digits v
  have hne := pyStrNat_ne_nil v
  have h46 : (46 : Nat) ∉ pyStrNat v := by
    intro hm
    have := hdig 46 hm
    simp [isDigitByte] at this
  have h45 : ¬((pyStrNat v).head? = some 45) := by
    intro hm
    have h45mem : (45 : Nat) ∈ pyStrNat v := by
      cases hl : pyStrNat v with
      | nil => rw [hl] at hm; simp at hm
      | cons b t =>
        rw [hl] at hm
        simp only [List.head?_cons, Option.some_inj] at hm
        rw [hm]
        exact List.mem_cons_self 45 t
    have := hdig 45 h45mem
    simp [isDigitByte] at this
  have hall : (pyStrNat v).all isDigitByte = true := List.all_eq_true.mpr hdig
  simp only [pyFloat, if_neg h45]
  rw [splitSeq_of_not_mem h46]
  show (if pyStrNat v ≠ [] ∧ (pyStrNat v).all isDigitByte = true then
      some (1 * (decDigits (pyStrNat v) : ℚ)) else none) = some (v : ℚ)
  rw [if_pos ⟨hne, hall⟩, decDigits_pyStrNat]
  simp

theorem parseGroup_mkGroupFields (g : List Nat × List Nat × Nat) :
    parseGroup (mkGroupFields g) = .ok (g.2.2 : ℚ) := by
  unfold parseGroup mkGroupFields
  rw [dif_pos (show ([g.1, g.2.1, pyStrNat g.2.2].length = 3) from rfl)]
  show (match pyFloat (pyStrNat g.2.2) with
    | some q => Except.ok q
    | none => Except.error (Err.valueError "could not convert string to float")) = _
  rw [pyFloat_pyStrNat]

theorem comma_not_mem_rowFields {row : List (List Nat × List Nat × Nat)}
    (hdig : ∀ g ∈ row, (∀ b ∈ g.1, isDigitByte b = true) ∧ (∀ b ∈ g.2.1, isDigitByte b = true)) :
    ∀ f ∈ rowFields row, (44 : Nat) ∉ f := by
  intro f hf hmem
  obtain ⟨g, hg, hcases⟩ := mem_rowFields hf
  have hbad : isDigitByte 44 = true := by
    rcases hcases with rfl | rfl | rfl
    · exact (hdig g hg).1 44 hmem
    · exact (hdig g hg).2 44 hmem
    · exact pyStrNat_digits _ 44 hmem
  simp [isDigitByte] at hbad

theorem mapM_parseGroup_map (row : List (List Nat × List Nat × Nat)) :
    List.mapM parseGroup (row.map mkGroupFields) = .ok (row.map fun g => (g.2.2 : ℚ)) := by
  induction row with
  | nil => rfl
  | cons g rest ih =>
    rw [List.map_cons, List.mapM_cons, parseGroup_mkGroupFields, ih]
    rfl

theorem parseRow_mkRow {row : List (List Nat × List Nat × Nat)} (hne : row ≠ [])
    (hdig : ∀ g ∈ row, (∀ b ∈ g.1, isDigitByte b = true) ∧ (∀ b ∈ g.2.1, isDigitByte b = true)) :
    parseRow (mkRow row) = .ok (row.map fun g => (g.2.2 : ℚ)) := by
  unfold parseRow mkRow
  rw [splitSeq_joinSep (rowFields_ne_nil hne) (comma_not_mem_rowFields hdig),
    chunks3_rowFields]
  exact mapM_parseGroup_map row

/-! ### Body-level lemmas -/

theorem cr_not_mem_mkRow {row : List (List Nat × List Nat × Nat)}
    (hdig : ∀ g ∈ row, (∀ b ∈ g.1, isDigitByte b = true) ∧ (∀ b ∈ g.2.1, isDigitByte b = true)) :
    (13 : Nat) ∉ mkRow row := by
  intro hmem
  rcases mem_joinSep hmem with hsep | ⟨f, hf, h13f⟩
  · simp at hsep
  · obtain ⟨g, hg, hcases⟩ := mem_rowFields hf
    have hbad : isDigitByte 13 = true := by
      rcases hcases with rfl | rfl | rfl
      · exact (hdig g hg).1 13 h13f
      · exact (hdig g hg).2 13 h13f
      · exact pyStrNat_digits _ 13 h13f
    simp [isDigitByte] at hbad

theorem mapM_parseRow_map :
    ∀ (grid : List (List (List Nat × List Nat × Nat))),
      (∀ row ∈ grid, row ≠ []) →
      (∀ row ∈ grid, ∀ g ∈ row,
        (∀ b ∈ g.1, isDigitByte b = true) ∧ (∀ b ∈ g.2.1, isDigitByte b = true)) →
      List.mapM parseRow (grid.map mkRow) = .ok (gridValues grid) := by
  intro grid
  induction grid with
  | nil => intro _ _; rfl
  | cons r rest ih =>
    intro hrow hdig
    rw [List.map_cons, List.mapM_cons,
      parseRow_mkRow (hrow r (List.mem_cons_self r rest)) (hdig r (List.mem_cons_self r rest)),
      ih (fun x hx => hrow x (List.mem_cons_of_mem r hx))
        (fun x hx => hdig x (List.mem_cons_of_mem r hx))]
    rfl

/-- `_parse_body` on a canonical well-formed body: the result is exactly
the grid of third-field values, row by row, group by group, with the index
fields ignored. -/
theorem parseBody_mkBody {grid : List (List (List Nat × List Nat × Nat))}
    (hlen : grid.length ≤ 8)
    (hrow : ∀ row ∈ grid, row ≠ [])
    (hdig : ∀ row ∈ grid, ∀ g ∈ row,
      (∀ b ∈ g.1, isDigitByte b = true) ∧ (∀ b ∈ g.2.1, isDigitByte b = true))
    (hmark : ∃ v gs rest, grid = (([48, 49], [48, 49], v) :: gs) :: rest) :
    parseBody (mkBody grid) = .ok (gridValues grid) := by
  obtain ⟨v, gs, rest, rfl⟩ := hmark
  have hrow1 : mkRow (([48, 49], [48, 49], v) :: gs) =
      [48, 49, 44, 48, 49, 44] ++ joinSep [44] (pyStrNat v :: rowFields gs) := rfl
  have hprefix : ∃ T, mkBody ((([48, 49], [48, 49], v) :: gs) :: rest) =
      [48, 49, 44, 48, 49] ++ T := by
    cases rest with
    | nil =>
      refine ⟨[44] ++ joinSep [44] (pyStrNat v :: rowFields gs) ++ [13, 10, 3], ?_⟩
      show mkRow (([48, 49], [48, 49], v) :: gs) ++ [13, 10, 3] = _
      rw [hrow1]
      simp
    | cons r2 rr =>
      refine ⟨[44] ++ joinSep [44] (pyStrNat v :: rowFields gs) ++ ([13, 10, 44] ++
        joinSep [13, 10, 44] ((r2 :: rr).map mkRow)) ++ [13, 10, 3], ?_⟩
      show mkRow (([48, 49], [48, 49], v) :: gs) ++ [13, 10, 44] ++
        joinSep [13, 10, 44] ((r2 :: rr).map mkRow) ++ [13, 10, 3] = _
      rw [hrow1]
      simp
  obtain ⟨T, hT⟩ := hprefix
  have hmarker : bytesOf "01,01" = [48, 49, 44, 48, 49] := by decide
  have hfind : findSeq (bytesOf "01,01")
      (mkBody ((([48, 49], [48, 49], v) :: gs) :: rest)) = some 0 := by
    rw [hmarker, hT]
    exact findSeq_of_startsWith (List.prefix_append _ _)
  have hr0 : rfindSeq [13, 10] [13, 10, 3] = some 0 := by decide
  have hbody : mkBody ((([48, 49], [48, 49], v) :: gs) :: rest) =
      joinSep [13, 10, 44] (((([48, 49], [48, 49], v) :: gs) :: rest).map mkRow) ++
        [13, 10, 3] := rfl
  have hrf : rfindSeq [13, 10] (mkBody ((([48, 49], [48, 49], v) :: gs) :: rest)) =
      some (joinSep [13, 10, 44]
        (((([48, 49], [48, 49], v) :: gs) :: rest).map mkRow)).length := by
    rw [hbody]
    have := rfindSeq_append_of_some
      (joinSep [13, 10, 44] (((([48, 49], [48, 49], v) :: gs) :: rest).map mkRow)) hr0
    simpa using this
  simp only [parseBody, hfind, hrf]
  rw [List.drop_zero, hbody, List.take_left]
  rw [splitSeq_joinSep (by simp)
    (by
      intro p hp
      rw [List.mem_map] at hp
      obtain ⟨row, hrowmem, rfl⟩ := hp
      exact cr_not_mem_mkRow (hdig row hrowmem))]
  rw [List.take_of_length_le (by simpa using hlen)]
  exact mapM_parseRow_map _ hrow hdig

/-! ### Terminator-read lemmas -/

theorem readUntilGo_no_term {term : Nat} :
    ∀ (pending acc : List Nat), term ∉ pending →
      readUntilGo term acc pending =
        (acc ++ pending, .error (.timeoutError "Timeout while waiting for response")) := by
  intro pending
  induction pending with
  | nil => intro acc _; simp [readUntilGo]
  | cons b rest ih =>
    intro acc h
    have hb : ¬(b = term) := fun hbt => h (hbt ▸ List.mem_cons_self b rest)
    simp only [readUntilGo, hb, if_false]
    rw [ih (acc ++ [b]) (fun hm => h (List.mem_cons_of_mem b hm))]
    simp

/-! ### Acquisition-loop lemmas -/

theorem acquireLoop_all_fail (cap : Nat → FetchOutcome) (alg fmt : Int) :
    ∀ (r idx : Nat), (∀ j, j < r → ∀ raw, cap (idx + j) ≠ .complete raw) →
      acquireLoop cap alg fmt r idx =
        (List.replicate r .trigger, .error (.timeoutError "max_image_read_attempts reached")) := by
  intro r
  induction r with
  | zero => intro idx _; rfl
  | succ r ih =>
    intro idx h
    have h0 : ∀ raw, cap idx ≠ .complete raw := by
      intro raw
      have := h 0 (by omega) raw
      simpa using this
    cases hc : cap idx with
    | complete raw => exact absurd hc (h0 raw)
    | incomplete =>
      simp only [acquireLoop, hc]
      rw [ih (idx + 1) (by
        intro j hj raw
        have := h (j + 1) (by omega) raw
        rwa [show idx + (j + 1) = idx + 1 + j by omega] at this)]
      simp [List.replicate_succ]
    | exn msg =>
      simp only [acquireLoop, hc]
      rw [ih (idx + 1) (by
        intro j hj raw
        have := h (j + 1) (by omega) raw
        rwa [show idx + (j + 1) = idx + 1 + j by omega] at this)]
      simp [List.replicate_succ]

theorem acquireLoop_first_complete (cap : Nat → FetchOutcome) (alg fmt : Int) :
    ∀ (k r idx raw : Nat), k < r →
      (∀ j, j < k → ∀ x, cap (idx + j) ≠ .complete x) →
      cap (idx + k) = .complete raw →
      acquireLoop cap alg fmt r idx =
        (List.replicate (k + 1) .trigger, .ok ⟨alg, fmt, raw⟩) := by
  intro k
  induction k with
  | zero =>
    intro r idx raw hr _ hk
    cases r with
    | zero => omega
    | succ r' =>
      have hc : cap idx = .complete raw := by simpa using hk
      simp [acquireLoop, hc]
  | succ k ih =>
    intro r idx raw hr h hk
    cases r with
    | zero => omega
    | succ r' =>
      have h0 : ∀ x, cap idx ≠ .complete x := by
        intro x
        have := h 0 (by omega) x
        simpa using this
      cases hc : cap idx with
      | complete x => exact absurd hc (h0 x)
      | incomplete =>
        simp only [acquireLoop, hc]
        rw [ih r' (idx + 1) raw (by omega)
          (by
            intro j hj x
            have := h (j + 1) (by omega) x
            rwa [show idx + (j + 1) = idx + 1 + j by omega] at this)
          (by rwa [show idx + 1 + k = idx + (k + 1) by omega])]
        simp [List.replicate_succ]
      | exn msg =>
        simp only [acquireLoop, hc]
        rw [ih r' (idx + 1) raw (by omega)
          (by
            intro j hj x
            have := h (j + 1) (by omega) x
            rwa [show idx + (j + 1) = idx + 1 + j by omega] at this)
          (by rwa [show idx + 1 + k = idx + (k + 1) by omega])]
        simp [List.replicate_succ]

/-! ### Setter-cache lemmas -/

theorem setExposure_ok_cache {st : ImSt} {e : ExposureV} {st' : ImSt}
    (h : setExposure st e = (st', .ok ())) : st'.exposure = some e := by
  unfold setExposure at h
  split at h
  · next hc =>
    cases h
    exact hc
  · next hc =>
    split at h
    · cases h
    · next cs hcam =>
      cases e with
      | auto =>
        simp only [setAutoExposure, hcam] at h
        cases h
        rfl
      | num q =>
        dsimp only at h
        split at h
        · cases h
        · split at h
          · cases h
          · cases h
            rfl

/-! ## Claims -/

/-- C1, counterexample: the claim says every absorbance checksum is
rendered as a 2-digit decimal string with a leading zero for values
below 10.  At wavelength 300 (valid, inside [230, 999]) the body sums to
2403, so the checksum value is 3, and the source's `str` rendering is the
single digit `"3"`, not `"03"`: the claim is false at this input. -/
theorem C1_counterexample :
    (230 ≤ 300 ∧ 300 ≤ 999) ∧ (absBody 300).sum % 100 < 10 ∧
      absChecksum 300 ≠ specTwoDigitChecksum ((absBody 300).sum % 100) ∧
      absChecksum 300 = [51] := by
  decide

/-- C1, amended: for every absorbance read with a wavelength in
[230, 999], the checksum appended before the ETX terminator decodes to
`sum(bytes of body) mod 100`, but it is rendered by Python `str` without
zero-padding: one digit when the value is below 10, two digits
otherwise. -/
theorem C1_theorem (w : Nat) (h1 : 230 ≤ w) (h2 : w ≤ 999) :
    absCmd w = absBody w ++ absChecksum w ++ [3] ∧
      decDigits (absChecksum w) = (absBody w).sum % 100 ∧
      ((absBody w).sum % 100 < 10 → (absChecksum w).length = 1) ∧
      (10 ≤ (absBody w).sum % 100 → (absChecksum w).length = 2) := by
  refine ⟨rfl, decDigits_pyStrNat _, ?_, ?_⟩
  · intro h
    unfold absChecksum
    rw [pyStrNat_length_lt100 _ (Nat.mod_lt _ (by omega))]
    simp [h]
  · intro h
    unfold absChecksum
    rw [pyStrNat_length_lt100 _ (Nat.mod_lt _ (by omega))]
    rw [if_neg (by omega)]

/-- C1, witness: the amended theorem at wavelength 300. -/
theorem C1_witness :
    ((230 ≤ 300 ∧ (300 : Nat) ≤ 999) ∧
      (absCmd 300 = absBody 300 ++ absChecksum 300 ++ [3] ∧
        decDigits (absChecksum 300) = (absBody 300).sum % 100 ∧
        ((absBody 300).sum % 100 < 10 → (absChecksum 300).length = 1) ∧
        (10 ≤ (absBody 300).sum % 100 → (absChecksum 300).length = 2))) :=
  ⟨⟨by decide, by decide⟩, C1_theorem 300 (by decide) (by decide)⟩

/-- C2: for every valid fluorescence command body the appended checksum
decodes to `(sum(body bytes) + 7) mod 100`, and for every shake command
body to `(sum(body bytes) + 73) mod 100`; in both cases the offset is
not omitted (the decoded checksum never equals the plain
`sum mod 100`). -/
theorem C2_theorem :
    (∀ ex em : Nat, 250 ≤ ex → ex ≤ 700 → 250 ≤ em → em ≤ 700 →
      fluorCmd ex em = fluorBody ex em ++ fluorChecksum ex em ++ [3] ∧
        decDigits (fluorChecksum ex em) = ((fluorBody ex em).sum + 7) % 100 ∧
        decDigits (fluorChecksum ex em) ≠ (fluorBody ex em).sum % 100) ∧
    (∀ ty : ShakeType,
      shakeCmd ty = shakeBody ty ++ shakeChecksum ty ++ [3] ∧
        decDigits (shakeChecksum ty) = ((shakeBody ty).sum + 73) % 100 ∧
        decDigits (shakeChecksum ty) ≠ (shakeBody ty).sum % 100) := by
  constructor
  · intro ex em _ _ _ _
    refine ⟨rfl, decDigits_pyStrNat _, ?_⟩
    rw [show decDigits (fluorChecksum ex em) = ((fluorBody ex em).sum + 7) % 100 from
      decDigits_pyStrNat _]
    omega
  · intro ty
    refine ⟨rfl, decDigits_pyStrNat _, ?_⟩
    rw [show decDigits (shakeChecksum ty) = ((shakeBody ty).sum + 73) % 100 from
      decDigits_pyStrNat _]
    omega

/-- C2, witness: excitation = emission = 500 and a linear shake. -/
theorem C2_witness :
    ((250 ≤ 500 ∧ (500 : Nat) ≤ 700) ∧
      (fluorCmd 500 500 = fluorBody 500 500 ++ fluorChecksum 500 500 ++ [3] ∧
        decDigits (fluorChecksum 500 500) = ((fluorBody 500 500).sum + 7) % 100 ∧
        decDigits (fluorChecksum 500 500) ≠ (fluorBody 500 500).sum % 100) ∧
      (shakeCmd .LINEAR = shakeBody .LINEAR ++ shakeChecksum .LINEAR ++ [3] ∧
        decDigits (shakeChecksum .LINEAR) = ((shakeBody .LINEAR).sum + 73) % 100 ∧
        decDigits (shakeChecksum .LINEAR) ≠ (shakeBody .LINEAR).sum % 100)) :=
  ⟨⟨by decide, by decide⟩,
   C2_theorem.1 500 500 (by decide) (by decide) (by decide) (by decide),
   C2_theorem.2 .LINEAR⟩

/-- C3, counterexample: the claim says a body with the `01,01` marker but
only 7 row segments fails with a protocol error and never yields a
matrix of fewer than 8 rows.  On the concrete 7-row body `mkBody grid7`
the parser succeeds and returns a 7-row matrix: `split` is truncated
with `[:8]` but a shorter split is accepted silently. -/
theorem C3_counterexample :
    parseBody (mkBody grid7) = .ok (gridValues grid7) ∧ (gridValues grid7).length = 7 := by
  constructor
  · exact parseBody_mkBody (by decide) (by decide) (by decide) ⟨1, [], _, rfl⟩
  · rfl

/-- C3, amended: a well-formed body with the marker and exactly 7 row
segments parses successfully into a 7-row matrix; fewer than 8 segments
is not an error. -/
theorem C3_theorem (grid : List (List (List Nat × List Nat × Nat)))
    (hlen : grid.length = 7)
    (hrow : ∀ row ∈ grid, row ≠ [])
    (hdig : ∀ row ∈ grid, ∀ g ∈ row,
      (∀ b ∈ g.1, isDigitByte b = true) ∧ (∀ b ∈ g.2.1, isDigitByte b = true))
    (hmark : ∃ v gs rest, grid = (([48, 49], [48, 49], v) :: gs) :: rest) :
    parseBody (mkBody grid) = .ok (gridValues grid) ∧ (gridValues grid).length = 7 := by
  refine ⟨parseBody_mkBody (by omega) hrow hdig hmark, ?_⟩
  simp [gridValues, hlen]

/-- C3, witness: the amended theorem at the concrete 7-row grid. -/
theorem C3_witness :
    (grid7.length = 7 ∧
      (∀ row ∈ grid7, row ≠ []) ∧
      (∀ row ∈ grid7, ∀ g ∈ row,
        (∀ b ∈ g.1, isDigitByte b = true) ∧ (∀ b ∈ g.2.1, isDigitByte b = true))) ∧
      (parseBody (mkBody grid7) = .ok (gridValues grid7) ∧ (gridValues grid7).length = 7) :=
  ⟨⟨by decide, by decide, by decide⟩,
   C3_theorem grid7 (by decide) (by decide) (by decide) ⟨1, [], _, rfl⟩⟩

/-- C4, counterexample: the claim says the `Timeout` error carries the
partial accumulator.  Two channels that never emit the terminator but
deliver different partial byte sequences (`[65, 66]` versus nothing)
produce *identical* error values, so no function of the error value can
recover the partial buffer: it is only logged, not carried. -/
theorem C4_counterexample :
    (readUntilFull [65, 66] 3).2 = (readUntilFull [] 3).2 ∧
      (readUntilFull [65, 66] 3).1 ≠ (readUntilFull [] 3).1 := by
  decide

/-- C4, amended: for every channel that never emits the terminator byte,
`_read_until` accumulates everything the channel delivers, logs it, and
fails with a `TimeoutError` whose value is the fixed message only. -/
theorem C4_theorem (pending : List Nat) (term : Nat) (h : term ∉ pending) :
    readUntilFull pending term =
      (pending, .error (.timeoutError "Timeout while waiting for response")) := by
  unfold readUntilFull
  rw [readUntilGo_no_term pending [] h]
  simp

/-- C4, witness: a channel delivering `"AB"` and never the ETX. -/
theorem C4_witness :
    ((3 : Nat) ∉ ([65, 66] : List Nat)) ∧
      readUntilFull [65, 66] 3 =
        ([65, 66], .error (.timeoutError "Timeout while waiting for response")) :=
  ⟨by decide, C4_theorem [65, 66] 3 (by decide)⟩

/-- C5, counterexample: the claim says calling `shake` while already
shaking is an idempotent no-op preserving the at-most-one-session
invariant.  Calling `shake` twice from the idle state changes the state
again on the second call and leaves two uncancelled background tasks. -/
theorem C5_counterexample :
    shakeStart (shakeStart {} .LINEAR) .LINEAR ≠ shakeStart {} .LINEAR ∧
      (shakeStart (shakeStart {} .LINEAR) .LINEAR).running.length = 2 := by
  decide

/-- C5, amended: calling `shake` while a session is active is not a
no-op: it unconditionally creates a fresh background task, replaces the
handle with it, and leaves the previous task running, growing the number
of active tasks by one. -/
theorem C5_theorem (st : ShakeSt) (ty : ShakeType) (h : st.shaking = true) :
    shakeStart st ty ≠ st ∧
      (shakeStart st ty).running.length = st.running.length + 1 ∧
      (shakeStart st ty).task = some st.nextId ∧
      (shakeStart st ty).shaking = true := by
  refine ⟨?_, by simp [shakeStart], rfl, rfl⟩
  intro heq
  have h2 := congrArg ShakeSt.nextId heq
  simp only [shakeStart] at h2
  omega

/-- C5, witness: the amended theorem applied to an active session. -/
theorem C5_witness :
    ((shakeStart {} ShakeType.ORBITAL).shaking = true ∧
      (shakeStart (shakeStart {} .ORBITAL) .LINEAR ≠ shakeStart {} .ORBITAL ∧
        (shakeStart (shakeStart {} .ORBITAL) .LINEAR).running.length =
          (shakeStart {} .ORBITAL).running.length + 1 ∧
        (shakeStart (shakeStart {} .ORBITAL) .LINEAR).task =
          some (shakeStart {} .ORBITAL).nextId ∧
        (shakeStart (shakeStart {} .ORBITAL) .LINEAR).shaking = true)) :=
  ⟨by decide, C5_theorem (shakeStart {} .ORBITAL) .LINEAR (by decide)⟩

/-- C6: a body consisting of the `01,01` marker group followed by exactly
8 row segments of 3-field groups parses into an 8-row matrix whose
entries are exactly the third field of each group converted to float, in
order, with the (arbitrary digit-string) index fields ignored. -/
theorem C6_theorem (grid : List (List (List Nat × List Nat × Nat)))
    (hlen : grid.length = 8)
    (hrow : ∀ row ∈ grid, row ≠ [])
    (hdig : ∀ row ∈ grid, ∀ g ∈ row,
      (∀ b ∈ g.1, isDigitByte b = true) ∧ (∀ b ∈ g.2.1, isDigitByte b = true))
    (hmark : ∃ v gs rest, grid = (([48, 49], [48, 49], v) :: gs) :: rest) :
    parseBody (mkBody grid) = .ok (gridValues grid) ∧
      (gridValues grid).length = 8 ∧
      gridValues grid = grid.map fun row => row.map fun g => (g.2.2 : ℚ) := by
  refine ⟨parseBody_mkBody (by omega) hrow hdig hmark, ?_, rfl⟩
  simp [gridValues, hlen]

/-- C6, witness: the theorem at a concrete 8-row grid with two groups in
each of the first two rows. -/
theorem C6_witness :
    ((grid8.length = 8 ∧
      (∀ row ∈ grid8, row ≠ []) ∧
      (∀ row ∈ grid8, ∀ g ∈ row,
        (∀ b ∈ g.1, isDigitByte b = true) ∧ (∀ b ∈ g.2.1, isDigitByte b = true))) ∧
      (parseBody (mkBody grid8) = .ok (gridValues grid8) ∧
        (gridValues grid8).length = 8 ∧
        gridValues grid8 = grid8.map fun row => row.map fun g => (g.2.2 : ℚ))) :=
  ⟨⟨by decide, by decide, by decide⟩,
   C6_theorem grid8 (by decide) (by decide) (by decide) ⟨100, [([48, 49], [48, 50], 200)], _, rfl⟩⟩

/-- C7: every cached setter is a no-op when called with the cached value:
a successful `set_exposure` followed by the same value leaves the state
(including the event trace) unchanged and succeeds; `set_focus`,
`select`, `set_gain` (camera present) and `set_imaging_mode` (camera
present) return immediately with no device or wire event when the
requested value equals the cache. -/
theorem C7_theorem :
    (∀ (st : ImSt) (e : ExposureV) (st' : ImSt),
      setExposure st e = (st', .ok ()) → setExposure st' e = (st', .ok ())) ∧
    (∀ (st : ImSt) (f : FocalV), st.focalHeight = some f → setFocus st f = (st, .ok ())) ∧
    (∀ (st : ImSt) (r c : Int), st.row = some r → st.column = some c →
      select st r c = (st, .ok ())) ∧
    (∀ (st : ImSt) (cs : CamState) (g : GainV), st.cam = some cs → st.gain = some g →
      setGain st g = (st, .ok ())) ∧
    (∀ (st : ImSt) (cs : CamState) (m : ImagingModeV), st.cam = some cs →
      st.imagingMode = some m → setImagingMode st m = (st, .ok ())) := by
  refine ⟨?_, ?_, ?_, ?_, ?_⟩
  · intro st e st' h
    have hc := setExposure_ok_cache h
    unfold setExposure
    rw [if_pos hc]
  · intro st f hf
    unfold setFocus
    rw [if_pos hf]
  · intro st r c hr hcol
    unfold select
    rw [if_pos ⟨hr, hcol⟩]
  · intro st cs g hcam hg
    simp [setGain, hcam, hg]
  · intro st cs m hcam hm
    simp [setImagingMode, hcam, hm]

/-- C7, witness: a fully cached, camera-initialized state: every setter
called with its cached value returns the state unchanged. -/
theorem C7_witness :
    setExposure imStFull (.num 5) = (imStFull, .ok ()) ∧
      imStFull.focalHeight = some (.num 3) ∧
      setFocus imStFull (.num 3) = (imStFull, .ok ()) ∧
      imStFull.row = some 1 ∧ imStFull.column = some 2 ∧
      select imStFull 1 2 = (imStFull, .ok ()) ∧
      imStFull.cam = some {} ∧ imStFull.gain = some .auto ∧
      setGain imStFull .auto = (imStFull, .ok ()) ∧
      imStFull.imagingMode = some .GFP ∧
      setImagingMode imStFull .GFP = (imStFull, .ok ()) :=
  ⟨C7_theorem.1 imStFull (.num 5) imStFull (by decide), rfl,
   C7_theorem.2.1 imStFull (.num 3) rfl, rfl, rfl,
   C7_theorem.2.2.1 imStFull 1 2 rfl rfl, rfl, rfl,
   C7_theorem.2.2.2.1 imStFull {} .auto rfl rfl, rfl,
   C7_theorem.2.2.2.2 imStFull {} .GFP rfl rfl⟩

/-- C8: for every wavelength outside [230, 999], `read_absorbance` fails
with the bounds `ValueError` before any channel operation: the device
state (operation trace and script) is returned unchanged, so zero bytes
are written. -/
theorem C8_theorem (dev : Dev) (w : Int) (h : w < 230 ∨ 999 < w) :
    readAbsorbance dev w =
      (dev, .error (.valueError "Wavelength must be between 230 and 999")) := by
  unfold readAbsorbance
  rw [if_pos (show ¬(230 ≤ w ∧ w ≤ 999) by omega)]

/-- C8, witness: wavelength 1000 on a fresh device. -/
theorem C8_witness :
    ((1000 : Int) < 230 ∨ (999 : Int) < 1000) ∧
      readAbsorbance {} 1000 =
        ({}, .error (.valueError "Wavelength must be between 230 and 999")) :=
  ⟨Or.inr (by decide), C8_theorem {} 1000 (Or.inr (by decide))⟩

/-- C9: `_acquire_image` performs at most 8 trigger-and-fetch attempts:
if the first complete image appears at attempt index `k < 8`, exactly
`k + 1` triggers are executed and the converted image of that attempt is
returned immediately; if no attempt completes, all 8 triggers are
executed and the call fails with the `TimeoutError`.  `BeginAcquisition`
and `EndAcquisition` bracket the loop on both paths. -/
theorem C9_theorem :
    (∀ (cap : Nat → FetchOutcome) (alg fmt : Int) (k raw : Nat),
      k < maxImageReadAttempts →
      (∀ j, j < k → ∀ x, cap j ≠ .complete x) →
      cap k = .complete raw →
      acquireImage cap alg fmt =
        (.begin :: (List.replicate (k + 1) .trigger ++ [.endAcq]), .ok ⟨alg, fmt, raw⟩)) ∧
    (∀ (cap : Nat → FetchOutcome) (alg fmt : Int),
      (∀ j, j < maxImageReadAttempts → ∀ x, cap j ≠ .complete x) →
      acquireImage cap alg fmt =
        (.begin :: (List.replicate maxImageReadAttempts .trigger ++ [.endAcq]),
          .error (.timeoutError "max_image_read_attempts reached"))) := by
  constructor
  · intro cap alg fmt k raw hk h hc
    unfold acquireImage
    rw [acquireLoop_first_complete cap alg fmt k maxImageReadAttempts 0 raw hk
      (by intro j hj x; simpa using h j hj x) (by simpa using hc)]
    rfl
  · intro cap alg fmt h
    unfold acquireImage
    rw [acquireLoop_all_fail cap alg fmt maxImageReadAttempts 0
      (by intro j hj x; simpa using h j hj x)]
    rfl

/-- C9, witness: a capability completing on its 4th attempt returns that
image after exactly 4 triggers; a capability that never completes
exhausts all 8 attempts and times out. -/
theorem C9_witness :
    (3 < maxImageReadAttempts ∧ cap4 3 = .complete 7) ∧
      acquireImage cap4 1 2 =
        (.begin :: (List.replicate 4 .trigger ++ [.endAcq]), .ok ⟨1, 2, 7⟩) ∧
      acquireImage capNever 1 2 =
        (.begin :: (List.replicate maxImageReadAttempts .trigger ++ [.endAcq]),
          .error (.timeoutError "max_image_read_attempts reached")) :=
  ⟨⟨by decide, by decide⟩,
   C9_theorem.1 cap4 1 2 3 7 (by decide)
     (by
       intro j hj x hx
       simp only [cap4] at hx
       rw [if_neg (by omega)] at hx
       exact FetchOutcome.noConfusion hx)
     (by decide),
   C9_theorem.2 capNever 1 2
     (by
       intro j hj x hx
       simp only [capNever] at hx
       split at hx <;> exact FetchOutcome.noConfusion hx)⟩

/-- C10: in `set_exposure` the cache check precedes the camera check — a
call with the cached value succeeds with no camera and no event, while a
call with a different value and no camera fails with the
camera-not-initialized `ValueError`; `set_gain` checks the camera first,
so with no camera it fails even when the requested gain is cached. -/
theorem C10_theorem :
    (∀ (st : ImSt) (v : ExposureV), st.cam = none → st.exposure = some v →
      setExposure st v = (st, .ok ())) ∧
    (∀ (st : ImSt) (v : ExposureV), st.cam = none → st.exposure ≠ some v →
      setExposure st v = (st, .error notInitErr)) ∧
    (∀ (st : ImSt) (g : GainV), st.cam = none → setGain st g = (st, .error notInitErr)) := by
  refine ⟨?_, ?_, ?_⟩
  · intro st v _ hexp
    unfold setExposure
    rw [if_pos hexp]
  · intro st v hcam hne
    unfold setExposure
    rw [if_neg hne]
    simp [hcam]
  · intro st g hcam
    simp [setGain, hcam]

/-- C10, witness: a camera-less state with cached exposure 5 and cached
auto gain: `set_exposure 5` succeeds, `set_exposure 7` raises
not-initialized, and `set_gain auto` raises not-initialized despite the
cache. -/
theorem C10_witness :
    (imStNoCam.cam = none ∧ imStNoCam.exposure = some (.num 5) ∧
      imStNoCam.exposure ≠ some (.num 7) ∧ imStNoCam.gain = some .auto) ∧
      setExposure imStNoCam (.num 5) = (imStNoCam, .ok ()) ∧
      setExposure imStNoCam (.num 7) = (imStNoCam, .error notInitErr) ∧
      setGain imStNoCam .auto = (imStNoCam, .error notInitErr) :=
  ⟨⟨rfl, rfl, by decide, rfl⟩,
   C10_theorem.1 imStNoCam (.num 5) rfl rfl,
   C10_theorem.2.1 imStNoCam (.num 7) rfl (by decide),
   C10_theorem.2.2 imStNoCam .auto rfl⟩

end Cytation5
